import Mathlib

/-!
# Verification of the DVR face recognition system

Shallow embedding of the recognition/notification loop (`system/main.py`),
the SQLite-backed visit store (`system/database.py`) and the web API
handlers (`web/app.py`), together with theorems settling the testable
properties stated in the specification.

Times and embedding distances are modelled as rationals; the external
face library is abstracted by the values it returns (the code only
branches on those values).
-/

namespace DVRFace

/-!
## Matching a detected embedding against the known faces
(`FaceRecognitionSystem.process_frame`, `system/main.py` lines 83-106)

`face_recognition.compare_faces(known, enc, tolerance)` returns the list
`face_distance(known, enc) <= tolerance` elementwise, and `np.argmin`
returns the index of the first minimum.  `process_frame` accepts a match
only when some entry of `matches` is true and `matches[best_match_index]`
holds, and then reports confidence `1 - face_distances[best_match_index]`.
-/

/-- Elementwise `distance <= tolerance`, as `face_recognition.compare_faces`
computes it from the distance vector. -/
def compare_faces (distances : List ℚ) (tolerance : ℚ) : List Bool :=
  distances.map (fun d => decide (d ≤ tolerance))

/-- Scan keeping the index of the strictly smallest value seen so far:
`bv`/`bi` are the best value and index, `ci` the index of the head of the
remaining list. -/
def argminGo : List ℚ → ℚ → Nat → Nat → Nat
  | [], _, bi, _ => bi
  | y :: ys, bv, bi, ci =>
      if y < bv then argminGo ys y ci (ci + 1) else argminGo ys bv bi (ci + 1)

/-- Index of the first minimum of a list, as `np.argmin` returns it
(0 on the empty list, which the code never queries). -/
def argmin : List ℚ → Nat
  | [] => 0
  | x :: xs => argminGo xs x 0 1

/-- The match decision of `process_frame` for one detected face, given the
distance from its embedding to each known embedding: `none` means the face
stays "Unknown" (`person_id = None`, confidence 0), `some (i, c)` means it
is matched to known entry `i` with confidence `c`. -/
def classify (distances : List ℚ) (tolerance : ℚ) : Option (Nat × ℚ) :=
  if distances.length = 0 then none
  else
    let ms := compare_faces distances tolerance
    if true ∈ ms then
      let best := argmin distances
      if ms.getD best false then some (best, 1 - distances.getD best 0)
      else none
    else none

/-!
## The dedup/notify loop
(`FaceRecognitionSystem.should_notify`, `system/main.py` lines 137-149, and
the per-detection body of `FaceRecognitionSystem.run`, lines 181-210)
-/

/-- In-memory loop state: the `last_seen` dict, read through Python's
`.get(person_id, 0)` default, modelled as a total function. -/
structure LoopState where
  last_seen : Nat → ℚ

/-- `should_notify(person_id, cooldown_seconds)`: `person_id is None`
returns `True` unconditionally (the `cooldown_seconds` argument is never
consulted on that path); otherwise it notifies iff more than
`cooldown_seconds` have elapsed since the recorded last time, recording the
current time exactly when it notifies. -/
def should_notify (s : LoopState) (person_id : Option Nat)
    (now cooldown_seconds : ℚ) : Bool × LoopState :=
  match person_id with
  | none => (true, s)
  | some pid =>
      if now - s.last_seen pid > cooldown_seconds then
        (true, ⟨fun p => if p = pid then now else s.last_seen p⟩)
      else (false, s)

/-- One face reported by `process_frame`, as consumed by the loop body. -/
structure Detection where
  person_id : Option Nat
  confidence : ℚ
  time : ℚ
deriving DecidableEq

/-- Store/notifier events the loop body emits: a logged Visit plus its
notification, or a logged UnidentifiedSighting plus its notification. -/
inductive Event where
  | visit (person_id : Nat) (confidence : ℚ)
  | unknownSighting
deriving DecidableEq

/-- Body of `for person in persons:` in `run`: the truthiness test
`if person['person_id']:` treats both `None` and `0` as unknown; known
detections use the default 300 s cooldown, and unknown detections call
`should_notify(None, cooldown_seconds=60)`. -/
def loopStep (s : LoopState) (d : Detection) : LoopState × List Event :=
  if d.person_id.getD 0 ≠ 0 then
    let pid := d.person_id.getD 0
    let r := should_notify s (some pid) d.time 300
    if r.1 then (r.2, [Event.visit pid d.confidence]) else (r.2, [])
  else
    let r := should_notify s none d.time 60
    if r.1 then (r.2, [Event.unknownSighting]) else (r.2, [])

/-- Processing a list of detections in order, accumulating emitted events. -/
def runDetections (s : LoopState) : List Detection → LoopState × List Event
  | [] => (s, [])
  | d :: ds =>
      let r := loopStep s d
      let r2 := runDetections r.1 ds
      (r2.1, r.2 ++ r2.2)

/-!
## The visit store (`system/database.py`)

Rows of the three tables, with `AUTOINCREMENT` ids tracked in the `DB`
record and `CURRENT_TIMESTAMP` passed in as an explicit `now` argument.
SQLite runs with foreign keys off (the code never issues
`PRAGMA foreign_keys`), so no cascade fires beyond the explicit DELETEs.
-/

structure Person where
  id : Nat
  name : String
  face_encoding : List ℚ
  first_seen : ℚ
  last_seen : ℚ
  visit_count : Nat
  notes : String
deriving DecidableEq

structure Visit where
  id : Nat
  person_id : Nat
  timestamp : ℚ
  confidence : ℚ
  image_path : String
deriving DecidableEq

structure UnknownVisitor where
  id : Nat
  timestamp : ℚ
  image_path : String
  identified : Bool
  identified_as : Option Nat
deriving DecidableEq

structure DB where
  persons : List Person
  visits : List Visit
  unknown_visitors : List UnknownVisitor
  next_person_id : Nat
  next_visit_id : Nat
  next_unknown_id : Nat
deriving DecidableEq

/-- Python truthiness of an optional string (`if name:` is false for both
`None` and `''`). -/
def strTruthy : Option String → Bool
  | none => false
  | some s => decide (¬ s = "")

/-- `Database.add_person`: the INSERT raises `IntegrityError` exactly when
the UNIQUE constraint on `name` is violated; then the transaction is rolled
back and `None` returned, otherwise the fresh `AUTOINCREMENT` id. -/
def DB.add_person (db : DB) (name : String) (enc : List ℚ) (notes : String)
    (now : ℚ) : Option Nat × DB :=
  if db.persons.any (fun p => decide (p.name = name)) then
    (none, db)
  else
    (some db.next_person_id,
     { db with
        persons := db.persons ++
          [⟨db.next_person_id, name, enc, now, now, 0, notes⟩],
        next_person_id := db.next_person_id + 1 })

/-- The `UPDATE persons SET notes = ?` statement of `update_person`,
guarded by `if notes is not None:`. -/
def DB.set_notes (db : DB) (pid : Nat) (notes : Option String) : DB :=
  match notes with
  | none => db
  | some s =>
      { db with persons := db.persons.map (fun p =>
          if p.id = pid then { p with notes := s } else p) }

/-- `Database.update_person`: the name UPDATE raises `IntegrityError` (the
whole call rolls back and returns `False`) exactly when the target row
exists and a different row already carries the new name; `if name:` skips
the name UPDATE for `None` and `''`. -/
def DB.update_person (db : DB) (pid : Nat) (name notes : Option String) :
    Bool × DB :=
  if strTruthy name then
    let n := name.getD ""
    if db.persons.any (fun p => decide (p.id = pid)) &&
       db.persons.any (fun p => decide (p.name = n ∧ p.id ≠ pid)) then
      (false, db)
    else
      let db1 : DB := { db with persons := db.persons.map (fun p =>
          if p.id = pid then { p with name := n } else p) }
      (true, db1.set_notes pid notes)
  else (true, db.set_notes pid notes)

/-- `Database.delete_person`: DELETE the visits referencing the id, then
the person row; a DELETE affecting zero rows is not an error, so the call
returns `True` for every id. -/
def DB.delete_person (db : DB) (pid : Nat) : Bool × DB :=
  (true,
   { db with
      visits := db.visits.filter (fun v => decide (v.person_id ≠ pid)),
      persons := db.persons.filter (fun p => decide (p.id ≠ pid)) })

/-- `Database.mark_unknown_as_identified`: one UPDATE sets `identified = 1`
and `identified_as` together on the row with the given id. -/
def DB.mark_unknown_as_identified (db : DB) (unknown_id person_id : Nat) :
    Bool × DB :=
  (true,
   { db with unknown_visitors := db.unknown_visitors.map (fun u =>
      if u.id = unknown_id
        then { u with identified := true, identified_as := some person_id }
        else u) })

/-- Insert an element in front of the first entry it sorts no later than
(stable insertion step). -/
def insertSorted (le : UnknownVisitor → UnknownVisitor → Bool)
    (a : UnknownVisitor) : List UnknownVisitor → List UnknownVisitor
  | [] => [a]
  | b :: bs => if le a b then a :: b :: bs else b :: insertSorted le a bs

/-- Stable insertion sort, modelling the deterministic row order of an
`ORDER BY` over a scan: ties keep their scan order. -/
def stableSort (le : UnknownVisitor → UnknownVisitor → Bool) :
    List UnknownVisitor → List UnknownVisitor
  | [] => []
  | a :: as => insertSorted le a (stableSort le as)

/-- `Database.get_unknown_visitors`: unresolved (or resolved) sightings,
newest first (`ORDER BY timestamp DESC`, a stable sort over the scan),
truncated to `limit` rows. -/
def DB.get_unknown_visitors (db : DB) (lim : Nat) (identified : Bool) :
    List UnknownVisitor :=
  (stableSort (fun a b => decide (b.timestamp ≤ a.timestamp))
      (db.unknown_visitors.filter (fun u => u.identified == identified))).take lim

/-- `SELECT p.name, p.visit_count FROM persons p ORDER BY p.visit_count
DESC LIMIT 1`: with `LIMIT 1` SQLite keeps a running best row while
scanning in rowid order, a later row replacing the kept one only when it
sorts strictly earlier, so ties keep the earlier (lowest-id) row. -/
def most_frequent : List Person → Option Person
  | [] => none
  | p :: ps =>
      some (ps.foldl (fun a r => if r.visit_count > a.visit_count then r else a) p)

/-- Result row of `Database.get_statistics`. -/
structure Stats where
  total_persons : Nat
  total_visits : Nat
  unknown_visitors : Nat
  visits_today : Nat
  most_frequent_name : Option String
  most_frequent_count : Nat
deriving DecidableEq

/-- `Database.get_statistics`; the `DATE(timestamp) = DATE('now')` test of
the `visits_today` query is abstracted by the `isToday` predicate. -/
def DB.get_statistics (db : DB) (isToday : ℚ → Bool) : Stats where
  total_persons := db.persons.length
  total_visits := db.visits.length
  unknown_visitors :=
    (db.unknown_visitors.filter (fun u => decide (u.identified = false))).length
  visits_today := (db.visits.filter (fun v => isToday v.timestamp)).length
  most_frequent_name := (most_frequent db.persons).map Person.name
  most_frequent_count := ((most_frequent db.persons).map Person.visit_count).getD 0

/-- Name uniqueness across the `persons` table (the UNIQUE constraint). -/
def uniqueNames (l : List Person) : Prop :=
  l.Pairwise (fun a b => a.name ≠ b.name)

/-- Id uniqueness across the `persons` table (the PRIMARY KEY). -/
def uniqueIds (l : List Person) : Prop :=
  l.Pairwise (fun a b => a.id ≠ b.id)

/-!
## The web API handlers (`web/app.py`)
-/

/-- `delete_person` route handler (`web/app.py` lines 143-150): HTTP 200
with a success body when the store call returns `True`, HTTP 500
otherwise. -/
def web_delete_person (db : DB) (pid : Nat) : Nat × DB :=
  let r := db.delete_person pid
  if r.1 then (200, r.2) else (500, r.2)

/-- Outcome of the `add_person` route. -/
inductive AddPersonResult where
  | badRequest (msg : String)
  | serverError
  | ok (person_id : Nat)
deriving DecidableEq

/-- A POST `/api/person` request as the handler reads it: the JSON `name`
and `notes` fields, whether a file part is attached, its filename, and the
face encodings `face_recognition.face_encodings` finds in the uploaded
image. -/
structure AddPersonRequest where
  name : Option String
  notes : String
  has_file : Bool
  filename : String
  file_encodings : List (List ℚ)
deriving DecidableEq

/-- `add_person` route handler (`web/app.py` lines 81-128).  The returned
`Bool` records whether the saved upload is still on disk afterwards: the
file is saved only on the file branch and deleted again exactly when no
face is found. -/
def web_add_person (db : DB) (req : AddPersonRequest) (now : ℚ) :
    AddPersonResult × DB × Bool :=
  if ¬ strTruthy req.name then (.badRequest "Name is required", db, false)
  else if req.has_file then
    if req.filename = "" then (.badRequest "No file selected", db, false)
    else
      match req.file_encodings with
      | [] => (.badRequest "No face found in image", db, false)
      | e :: _ =>
          let r := db.add_person (req.name.getD "") e req.notes now
          match r.1 with
          | some pid => (.ok pid, r.2, true)
          | none => (.serverError, r.2, true)
  else (.badRequest "No image provided", db, false)

/-- Outcome of the `identify_unknown` route. -/
inductive IdentifyResult where
  | badRequest (msg : String)
  | notFound
  | serverError
  | ok (person_id : Nat)
deriving DecidableEq

/-- `identify_unknown` route handler (`web/app.py` lines 168-211).
`encodingsOf` abstracts `face_recognition.face_encodings` on the image
stored at a path.  Besides the outcome, the handler returns the sequence
of store states committed while it ran: `db.add_person` and
`db.mark_unknown_as_identified` each open and commit their own SQLite
transaction, so the state after the first commit is observable. -/
def web_identify_unknown (db : DB) (encodingsOf : String → List (List ℚ))
    (unknown_id : Nat) (name : Option String) (notes : String) (now : ℚ) :
    IdentifyResult × List DB :=
  if ¬ strTruthy name then (.badRequest "Name is required", [db])
  else
    match (db.get_unknown_visitors 1000 false).find?
        (fun u => decide (u.id = unknown_id)) with
    | none => (.notFound, [db])
    | some u =>
        match encodingsOf u.image_path with
        | [] => (.badRequest "No face found in image", [db])
        | e :: _ =>
            let r := db.add_person (name.getD "") e notes now
            match r.1 with
            | none => (.serverError, [db, r.2])
            | some pid =>
                let r2 := r.2.mark_unknown_as_identified unknown_id pid
                (.ok pid, [db, r.2, r2.2])

/-- The UnidentifiedSighting invariant of the data model: the resolved
flag is set iff the Person back-reference is non-null. -/
def flagRefInv (db : DB) : Prop :=
  ∀ u ∈ db.unknown_visitors, u.identified = true ↔ u.identified_as ≠ none

/-!
## The configuration document and its redacted read
(`get_config`, `web/app.py` lines 213-231)
-/

structure DvrConfig where
  ip : String
  port : Nat
  username : String
  password : Option String
  channel : Nat
  subtype : Nat
deriving DecidableEq

structure EmailConfig where
  enabled : Bool
  sendgrid_api_key : Option String
  from_email : Option String
  to_email : Option String
deriving DecidableEq

structure TelegramConfig where
  enabled : Bool
  bot_token : Option String
  chat_id : Option String
deriving DecidableEq

structure NotificationsConfig where
  enabled : Bool
  email : Option EmailConfig
  telegram : Option TelegramConfig
deriving DecidableEq

structure RecognitionConfig where
  tolerance : ℚ
  process_every_n_frames : Nat
deriving DecidableEq

/-- The hierarchical `config/config.json` document; the sections the
handlers probe with `in` are optional. -/
structure Config where
  dvr : Option DvrConfig
  notifications : Option NotificationsConfig
  recognition : Option RecognitionConfig
deriving DecidableEq

/-- `get_config` route handler: the loaded document with
`dvr.password`, `notifications.email.sendgrid_api_key` and
`notifications.telegram.bot_token` popped before serialization. -/
def web_get_config (c : Config) : Config :=
  { c with
      dvr := c.dvr.map (fun d => { d with password := none }),
      notifications := c.notifications.map (fun n =>
        { n with
            email := n.email.map (fun e => { e with sendgrid_api_key := none }),
            telegram := n.telegram.map (fun t => { t with bot_token := none }) }) }

/-- Agreement of two DVR sections on everything but the password. -/
def dvrNonSecretEq (d1 d2 : DvrConfig) : Prop :=
  d1.ip = d2.ip ∧ d1.port = d2.port ∧ d1.username = d2.username ∧
  d1.channel = d2.channel ∧ d1.subtype = d2.subtype

/-- Agreement of two email sections on everything but the API key. -/
def emailNonSecretEq (e1 e2 : EmailConfig) : Prop :=
  e1.enabled = e2.enabled ∧ e1.from_email = e2.from_email ∧
  e1.to_email = e2.to_email

/-- Agreement of two messaging sections on everything but the bot token. -/
def telegramNonSecretEq (t1 t2 : TelegramConfig) : Prop :=
  t1.enabled = t2.enabled ∧ t1.chat_id = t2.chat_id

/-- Agreement of two notification sections outside the secret fields. -/
def notificationsNonSecretEq (n1 n2 : NotificationsConfig) : Prop :=
  n1.enabled = n2.enabled ∧
  Option.Rel emailNonSecretEq n1.email n2.email ∧
  Option.Rel telegramNonSecretEq n1.telegram n2.telegram

/-- Agreement of two configuration documents on every field other than the
DVR password, the email-channel API key and the messaging-channel bot
token. -/
def configNonSecretEq (c1 c2 : Config) : Prop :=
  Option.Rel dvrNonSecretEq c1.dvr c2.dvr ∧
  Option.Rel notificationsNonSecretEq c1.notifications c2.notifications ∧
  c1.recognition = c2.recognition

/-!
## Theorems
-/

theorem argminGo_spec (xs : List ℚ) (bv : ℚ) (bi ci : Nat) :
    (argminGo xs bv bi ci = bi ∧ ∀ k, k < xs.length → bv ≤ xs.getD k 0) ∨
    (∃ j, j < xs.length ∧ argminGo xs bv bi ci = ci + j ∧ xs.getD j 0 < bv ∧
      (∀ k, k < xs.length → xs.getD j 0 ≤ xs.getD k 0) ∧
      (∀ k, k < j → xs.getD j 0 < xs.getD k 0)) := by
  induction xs generalizing bv bi ci with
  | nil =>
      left
      exact ⟨rfl, fun k hk => absurd hk (by simp)⟩
  | cons y ys ih =>
      by_cases hy : y < bv
      · rcases ih y ci (ci + 1) with ⟨heq, hall⟩ | ⟨j, hj, heq, hlt, hmin, hfirst⟩
        · right
          refine ⟨0, by simp, ?_, ?_, ?_, ?_⟩
          · simpa [argminGo, hy] using heq
          · simpa using hy
          · intro k hk
            cases k with
            | zero => simp
            | succ k =>
                simp only [List.getD_cons_zero, List.getD_cons_succ]
                exact hall k (by simpa using hk)
          · intro k hk; omega
        · right
          refine ⟨j + 1, by simpa using Nat.succ_lt_succ hj, ?_, ?_, ?_, ?_⟩
          · have : argminGo (y :: ys) bv bi ci = argminGo ys y ci (ci + 1) := by
              simp [argminGo, hy]
            rw [this, heq]; omega
          · simp only [List.getD_cons_succ]
            exact lt_trans hlt hy
          · intro k hk
            cases k with
            | zero =>
                simp only [List.getD_cons_succ, List.getD_cons_zero]
                exact le_of_lt hlt
            | succ k =>
                simp only [List.getD_cons_succ]
                exact hmin k (by simpa using hk)
          · intro k hk
            cases k with
            | zero =>
                simp only [List.getD_cons_succ, List.getD_cons_zero]
                exact hlt
            | succ k =>
                simp only [List.getD_cons_succ]
                exact hfirst k (by omega)
      · rcases ih bv bi (ci + 1) with ⟨heq, hall⟩ | ⟨j, hj, heq, hlt, hmin, hfirst⟩
        · left
          constructor
          · simpa [argminGo, hy] using heq
          · intro k hk
            cases k with
            | zero =>
                simp only [List.getD_cons_zero]
                exact le_of_not_lt hy
            | succ k =>
                simp only [List.getD_cons_succ]
                exact hall k (by simpa using hk)
        · right
          refine ⟨j + 1, by simpa using Nat.succ_lt_succ hj, ?_, ?_, ?_, ?_⟩
          · have : argminGo (y :: ys) bv bi ci = argminGo ys bv bi (ci + 1) := by
              simp [argminGo, hy]
            rw [this, heq]; omega
          · simpa only [List.getD_cons_succ] using hlt
          · intro k hk
            cases k with
            | zero =>
                simp only [List.getD_cons_succ, List.getD_cons_zero]
                exact le_of_lt (lt_of_lt_of_le hlt (le_of_not_lt hy))
            | succ k =>
                simp only [List.getD_cons_succ]
                exact hmin k (by simpa using hk)
          · intro k hk
            cases k with
            | zero =>
                simp only [List.getD_cons_succ, List.getD_cons_zero]
                exact lt_of_lt_of_le hlt (le_of_not_lt hy)
            | succ k =>
                simp only [List.getD_cons_succ]
                exact hfirst k (by omega)

theorem argmin_spec (l : List ℚ) (hne : l ≠ []) :
    argmin l < l.length ∧
    (∀ k, k < l.length → l.getD (argmin l) 0 ≤ l.getD k 0) ∧
    (∀ k, k < argmin l → l.getD (argmin l) 0 < l.getD k 0) := by
  cases l with
  | nil => exact absurd rfl hne
  | cons x xs =>
      have h := argminGo_spec xs x 0 1
      have harg : argmin (x :: xs) = argminGo xs x 0 1 := rfl
      rcases h with ⟨heq, hall⟩ | ⟨j, hj, heq, hlt, hmin, hfirst⟩
      · rw [harg, heq]
        refine ⟨by simp, ?_, ?_⟩
        · intro k hk
          cases k with
          | zero => simp
          | succ k =>
              simp only [List.getD_cons_zero, List.getD_cons_succ]
              exact hall k (by simpa using hk)
        · intro k hk; omega
      · rw [harg, heq]
        have h1j : 1 + j = j + 1 := by omega
        rw [h1j]
        refine ⟨by simpa using Nat.succ_lt_succ hj, ?_, ?_⟩
        · intro k hk
          cases k with
          | zero =>
              simp only [List.getD_cons_succ, List.getD_cons_zero]
              exact le_of_lt hlt
          | succ k =>
              simp only [List.getD_cons_succ]
              exact hmin k (by simpa using hk)
        · intro k hk
          cases k with
          | zero =>
              simp only [List.getD_cons_succ, List.getD_cons_zero]
              exact hlt
          | succ k =>
              simp only [List.getD_cons_succ]
              exact hfirst k (by omega)

theorem getD_eq_getElem_of_lt (l : List ℚ) (n : Nat) (h : n < l.length) :
    l.getD n 0 = l.get ⟨n, h⟩ := by
  simp [List.getD_eq_getElem?_getD, List.getElem?_eq_getElem h]

theorem true_mem_compare_faces (ds : List ℚ) (tol : ℚ) :
    true ∈ compare_faces ds tol ↔ ∃ j, j < ds.length ∧ ds.getD j 0 ≤ tol := by
  constructor
  · intro h
    rcases List.mem_map.mp h with ⟨d, hd, hdec⟩
    rcases List.mem_iff_get.mp hd with ⟨⟨j, hj⟩, rfl⟩
    refine ⟨j, hj, ?_⟩
    rw [getD_eq_getElem_of_lt ds j hj]
    exact of_decide_eq_true hdec
  · rintro ⟨j, hj, hle⟩
    refine List.mem_map.mpr ⟨ds.get ⟨j, hj⟩, List.get_mem ds j hj, ?_⟩
    rw [getD_eq_getElem_of_lt ds j hj] at hle
    exact decide_eq_true hle

theorem compare_faces_getD (ds : List ℚ) (tol : ℚ) (n : Nat) (h : n < ds.length) :
    (compare_faces ds tol).getD n false = decide (ds.getD n 0 ≤ tol) := by
  have hlen : n < (compare_faces ds tol).length := by
    simpa [compare_faces] using h
  rw [getD_eq_getElem_of_lt ds n h]
  simp [compare_faces, List.getD_eq_getElem?_getD, List.getElem?_eq_getElem hlen,
    List.getElem?_eq_getElem h]

/-- C2: For every detected embedding (represented by its distance vector)
and every non-empty known-embedding set with tolerance τ: the detection is
matched to the known entry with minimum distance d iff d ≤ τ (nearest
neighbor, first index on ties), it is classified unknown otherwise, and
the reported confidence of a match equals 1 - d. -/
theorem claim_C2_nearest_neighbor_matching (distances : List ℚ) (tolerance : ℚ)
    (hne : distances ≠ []) :
    (∀ i c, classify distances tolerance = some (i, c) →
        i < distances.length ∧
        distances.getD i 0 ≤ tolerance ∧
        (∀ j, j < distances.length → distances.getD i 0 ≤ distances.getD j 0) ∧
        (∀ j, j < i → distances.getD i 0 < distances.getD j 0) ∧
        c = 1 - distances.getD i 0) ∧
    (classify distances tolerance = none ↔
        ∀ j, j < distances.length → tolerance < distances.getD j 0) := by
  have hlen : ¬ distances.length = 0 := fun h => hne (List.length_eq_zero.mp h)
  by_cases htm : true ∈ compare_faces distances tolerance
  · obtain ⟨hbl, hmin, hfirst⟩ := argmin_spec distances hne
    obtain ⟨j, hj, hjle⟩ := (true_mem_compare_faces distances tolerance).mp htm
    have hbest_le : distances.getD (argmin distances) 0 ≤ tolerance :=
      le_trans (hmin j hj) hjle
    have hms : (compare_faces distances tolerance).getD (argmin distances) false = true := by
      rw [compare_faces_getD _ _ _ hbl]
      exact decide_eq_true hbest_le
    have hcl : classify distances tolerance
        = some (argmin distances, 1 - distances.getD (argmin distances) 0) := by
      have hms' := hms
      rw [List.getD_eq_getElem?_getD] at hms'
      simp [classify, hlen, htm, hms']
    constructor
    · intro i c hic
      rw [hcl, Option.some.injEq, Prod.mk.injEq] at hic
      obtain ⟨rfl, rfl⟩ := hic
      exact ⟨hbl, hbest_le, hmin, hfirst, rfl⟩
    · rw [hcl]
      constructor
      · intro h
        exact absurd h (by simp)
      · intro hall
        exact absurd hbest_le (not_le.mpr (hall _ hbl))
  · have hcl : classify distances tolerance = none := by
      simp [classify, hlen, htm]
    constructor
    · intro i c hic
      rw [hcl] at hic
      exact absurd hic (by simp)
    · rw [hcl]
      constructor
      · intro _ j hj
        by_contra hle
        exact htm ((true_mem_compare_faces distances tolerance).mpr
          ⟨j, hj, le_of_not_lt hle⟩)
      · intro _
        rfl

theorem claim_C2_nearest_neighbor_matching_witness :
    (∀ i c, classify [(1:ℚ)/2, 3/10] (6/10) = some (i, c) →
        i < ([(1:ℚ)/2, 3/10] : List ℚ).length ∧
        ([(1:ℚ)/2, 3/10] : List ℚ).getD i 0 ≤ 6/10 ∧
        (∀ j, j < ([(1:ℚ)/2, 3/10] : List ℚ).length →
          ([(1:ℚ)/2, 3/10] : List ℚ).getD i 0 ≤ ([(1:ℚ)/2, 3/10] : List ℚ).getD j 0) ∧
        (∀ j, j < i →
          ([(1:ℚ)/2, 3/10] : List ℚ).getD i 0 < ([(1:ℚ)/2, 3/10] : List ℚ).getD j 0) ∧
        c = 1 - ([(1:ℚ)/2, 3/10] : List ℚ).getD i 0) ∧
    (classify [(1:ℚ)/2, 3/10] (6/10) = none ↔
        ∀ j, j < ([(1:ℚ)/2, 3/10] : List ℚ).length →
          6/10 < ([(1:ℚ)/2, 3/10] : List ℚ).getD j 0) :=
  claim_C2_nearest_neighbor_matching [(1:ℚ)/2, 3/10] (6/10) (by decide)

/-- C1 counterexample: two unknown detections 30 s apart — less than the
60 s unknown cooldown window — each log an UnidentifiedSighting and emit a
notification: the loop produces two events, not at most one. -/
theorem claim_C1_counterexample :
    ((30:ℚ) - 0 < 60) ∧
    (runDetections ⟨fun _ => 0⟩
        [⟨none, 0, 0⟩, ⟨none, 0, 30⟩]).2
      = [Event.unknownSighting, Event.unknownSighting] := by
  exact ⟨by norm_num, rfl⟩

/-- C1 amended: `should_notify` returns `True` unconditionally when
`person_id is None`, so no cooldown applies to unknown detections at all
(the 60-second argument is dead): every unknown detection in a processed
batch logs one UnidentifiedSighting and emits one notification, and the
cooldown state is untouched. -/
theorem claim_C1_amended_unknown_always_notifies (s : LoopState)
    (ds : List Detection) (h : ∀ d ∈ ds, d.person_id = none) :
    (runDetections s ds).1 = s ∧
    (runDetections s ds).2 = ds.map (fun _ => Event.unknownSighting) := by
  induction ds with
  | nil => exact ⟨rfl, rfl⟩
  | cons d ds ih =>
      have hd : d.person_id = none := h d (List.mem_cons_self d ds)
      have hstep : loopStep s d = (s, [Event.unknownSighting]) := by
        simp [loopStep, should_notify, hd]
      obtain ⟨ih1, ih2⟩ := ih (fun d hd => h d (List.mem_cons_of_mem _ hd))
      constructor
      · simp [runDetections, hstep, ih1]
      · simp [runDetections, hstep, ih2]

theorem claim_C1_amended_unknown_always_notifies_witness :
    (runDetections ⟨fun _ => 0⟩ [⟨none, 0, 0⟩, ⟨none, 0, 5⟩]).1 = ⟨fun _ => 0⟩ ∧
    (runDetections ⟨fun _ => 0⟩ [⟨none, 0, 0⟩, ⟨none, 0, 5⟩]).2
      = ([⟨none, 0, 0⟩, ⟨none, 0, 5⟩] : List Detection).map
          (fun _ => Event.unknownSighting) :=
  claim_C1_amended_unknown_always_notifies ⟨fun _ => 0⟩
    [⟨none, 0, 0⟩, ⟨none, 0, 5⟩] (by decide)

/-- C3: for a known person-id, two detections less than 300 s apart produce
at most one Visit/notification (from any cooldown state), and two
detections more than 300 s apart — the first itself more than 300 s past
the recorded last notification — each produce one. -/
theorem claim_C3_known_person_cooldown (s : LoopState) (pid : Nat)
    (c1 c2 t1 t2 : ℚ) (hpid : pid ≠ 0) :
    (t2 - t1 < 300 →
      ((runDetections s [⟨some pid, c1, t1⟩, ⟨some pid, c2, t2⟩]).2).length ≤ 1) ∧
    (t1 - s.last_seen pid > 300 → t2 - t1 > 300 →
      (runDetections s [⟨some pid, c1, t1⟩, ⟨some pid, c2, t2⟩]).2
        = [Event.visit pid c1, Event.visit pid c2]) := by
  constructor
  · intro hgap
    by_cases h1 : t1 - s.last_seen pid > 300
    · have h2 : ¬ (t2 - t1 > 300) := by
        intro hc
        linarith
      simp [runDetections, loopStep, should_notify, hpid, h1, h2]
    · by_cases h2 : t2 - s.last_seen pid > 300
      · simp [runDetections, loopStep, should_notify, hpid, h1, h2]
      · simp [runDetections, loopStep, should_notify, hpid, h1, h2]
  · intro h1 h2
    simp [runDetections, loopStep, should_notify, hpid, h1, h2]

theorem claim_C3_known_person_cooldown_witness :
    (((800:ℚ) - 400 < 300) →
      ((runDetections ⟨fun _ => 0⟩
          [⟨some 1, 9/10, 400⟩, ⟨some 1, 8/10, 800⟩]).2).length ≤ 1) ∧
    (((400:ℚ) - LoopState.last_seen ⟨fun _ => 0⟩ 1 > 300) → ((800:ℚ) - 400 > 300) →
      (runDetections ⟨fun _ => 0⟩
          [⟨some 1, 9/10, 400⟩, ⟨some 1, 8/10, 800⟩]).2
        = [Event.visit 1 (9/10), Event.visit 1 (8/10)]) :=
  claim_C3_known_person_cooldown ⟨fun _ => 0⟩ 1 (9/10) (8/10) 400 800 (by decide)

theorem most_frequent_go_spec (l : List Person) (q : Person) :
    (l.foldl (fun a r => if r.visit_count > a.visit_count then r else a) q = q ∧
      ∀ r ∈ l, r.visit_count ≤ q.visit_count) ∨
    (∃ l1 p l2, l = l1 ++ p :: l2 ∧
      l.foldl (fun a r => if r.visit_count > a.visit_count then r else a) q = p ∧
      q.visit_count < p.visit_count ∧
      (∀ r ∈ l1, r.visit_count < p.visit_count) ∧
      (∀ r ∈ l2, r.visit_count ≤ p.visit_count)) := by
  induction l generalizing q with
  | nil =>
      left
      exact ⟨rfl, fun r hr => absurd hr (List.not_mem_nil r)⟩
  | cons r rs ih =>
      by_cases hr : r.visit_count > q.visit_count
      · have hfold : (r :: rs).foldl
            (fun a x => if x.visit_count > a.visit_count then x else a) q
            = rs.foldl (fun a x => if x.visit_count > a.visit_count then x else a) r := by
          simp [List.foldl_cons, hr]
        rcases ih r with ⟨heq, hall⟩ | ⟨l1, p, l2, hsplit, heq, hlt, h1, h2⟩
        · right
          exact ⟨[], r, rs, rfl, by rw [hfold, heq], hr,
            fun x hx => absurd hx (List.not_mem_nil x), hall⟩
        · right
          refine ⟨r :: l1, p, l2, by rw [hsplit, List.cons_append], by rw [hfold, heq],
            lt_trans hr hlt, ?_, h2⟩
          intro x hx
          rcases List.mem_cons.mp hx with rfl | hx
          · exact hlt
          · exact h1 x hx
      · have hfold : (r :: rs).foldl
            (fun a x => if x.visit_count > a.visit_count then x else a) q
            = rs.foldl (fun a x => if x.visit_count > a.visit_count then x else a) q := by
          simp [List.foldl_cons, hr]
        rcases ih q with ⟨heq, hall⟩ | ⟨l1, p, l2, hsplit, heq, hlt, h1, h2⟩
        · left
          refine ⟨by rw [hfold, heq], ?_⟩
          intro x hx
          rcases List.mem_cons.mp hx with rfl | hx
          · exact le_of_not_lt hr
          · exact hall x hx
        · right
          refine ⟨r :: l1, p, l2, by rw [hsplit, List.cons_append], by rw [hfold, heq], hlt, ?_, h2⟩
          intro x hx
          rcases List.mem_cons.mp hx with rfl | hx
          · exact lt_of_le_of_lt (le_of_not_lt hr) hlt
          · exact h1 x hx

theorem most_frequent_spec (l : List Person) (hne : l ≠ []) :
    ∃ l1 p l2, l = l1 ++ p :: l2 ∧ most_frequent l = some p ∧
      (∀ r ∈ l1, r.visit_count < p.visit_count) ∧
      (∀ r ∈ l2, r.visit_count ≤ p.visit_count) := by
  cases l with
  | nil => exact absurd rfl hne
  | cons x xs =>
      rcases most_frequent_go_spec xs x with ⟨heq, hall⟩ |
        ⟨l1, p, l2, hsplit, heq, hlt, h1, h2⟩
      · exact ⟨[], x, xs, rfl, by simp [most_frequent, heq],
          fun r hr => absurd hr (List.not_mem_nil r), hall⟩
      · refine ⟨x :: l1, p, l2, by rw [hsplit]; rfl,
          by simp [most_frequent, heq], ?_, h2⟩
        intro r hr
        rcases List.mem_cons.mp hr with rfl | hr
        · exact hlt
        · exact h1 r hr

/-- C6: `get_statistics` returns the row counts of the three tables (with
`unknown_visitors` counting only unresolved sightings) and
`most_frequent_visitor` is the Person with maximal visit counter, ties
broken by insertion order — lowest id first — when the rows sit in id
order. -/
theorem claim_C6_statistics (db : DB) (isToday : ℚ → Bool)
    (hsorted : db.persons.Pairwise (fun a b => a.id < b.id)) :
    (db.get_statistics isToday).total_persons = db.persons.length ∧
    (db.get_statistics isToday).total_visits = db.visits.length ∧
    (db.get_statistics isToday).unknown_visitors
      = (db.unknown_visitors.filter (fun u => decide (u.identified = false))).length ∧
    (db.persons = [] →
      (db.get_statistics isToday).most_frequent_name = none ∧
      (db.get_statistics isToday).most_frequent_count = 0) ∧
    (db.persons ≠ [] →
      ∃ p ∈ db.persons,
        (db.get_statistics isToday).most_frequent_name = some p.name ∧
        (db.get_statistics isToday).most_frequent_count = p.visit_count ∧
        (∀ q ∈ db.persons, q.visit_count ≤ p.visit_count) ∧
        (∀ q ∈ db.persons, q.visit_count = p.visit_count → p.id ≤ q.id)) := by
  refine ⟨rfl, rfl, rfl, ?_, ?_⟩
  · intro h
    constructor
    · simp [DB.get_statistics, most_frequent, h]
    · simp [DB.get_statistics, most_frequent, h]
  · intro hne
    obtain ⟨l1, p, l2, hsplit, hmf, h1, h2⟩ := most_frequent_spec db.persons hne
    refine ⟨p, ?_, ?_, ?_, ?_, ?_⟩
    · rw [hsplit]
      exact List.mem_append_right _ (List.mem_cons_self _ _)
    · simp [DB.get_statistics, hmf]
    · simp [DB.get_statistics, hmf]
    · intro q hq
      rw [hsplit] at hq
      rcases List.mem_append.mp hq with hq1 | hq2
      · exact le_of_lt (h1 q hq1)
      · rcases List.mem_cons.mp hq2 with rfl | hq2
        · exact le_refl _
        · exact h2 q hq2
    · intro q hq hcnt
      rw [hsplit] at hq hsorted
      rcases List.mem_append.mp hq with hq1 | hq2
      · exact absurd hcnt (ne_of_lt (h1 q hq1))
      · rcases List.mem_cons.mp hq2 with rfl | hq2
        · exact le_refl _
        · obtain ⟨_, hp2, _⟩ := List.pairwise_append.mp hsorted
          exact le_of_lt ((List.pairwise_cons.mp hp2).1 q hq2)

theorem claim_C6_statistics_witness :
    ((DB.get_statistics ⟨[⟨1, "A", [], 0, 0, 3, ""⟩, ⟨2, "B", [], 0, 0, 3, ""⟩],
        [], [], 3, 1, 1⟩ (fun _ => false)).total_persons
      = (([⟨1, "A", [], 0, 0, 3, ""⟩, ⟨2, "B", [], 0, 0, 3, ""⟩] : List Person)).length) ∧
    ((DB.get_statistics ⟨[⟨1, "A", [], 0, 0, 3, ""⟩, ⟨2, "B", [], 0, 0, 3, ""⟩],
        [], [], 3, 1, 1⟩ (fun _ => false)).total_visits = ([] : List Visit).length) ∧
    ((DB.get_statistics ⟨[⟨1, "A", [], 0, 0, 3, ""⟩, ⟨2, "B", [], 0, 0, 3, ""⟩],
        [], [], 3, 1, 1⟩ (fun _ => false)).unknown_visitors
      = (([] : List UnknownVisitor).filter (fun u => decide (u.identified = false))).length) ∧
    (([⟨1, "A", [], 0, 0, 3, ""⟩, ⟨2, "B", [], 0, 0, 3, ""⟩] : List Person) = [] →
      (DB.get_statistics ⟨[⟨1, "A", [], 0, 0, 3, ""⟩, ⟨2, "B", [], 0, 0, 3, ""⟩],
        [], [], 3, 1, 1⟩ (fun _ => false)).most_frequent_name = none ∧
      (DB.get_statistics ⟨[⟨1, "A", [], 0, 0, 3, ""⟩, ⟨2, "B", [], 0, 0, 3, ""⟩],
        [], [], 3, 1, 1⟩ (fun _ => false)).most_frequent_count = 0) ∧
    (([⟨1, "A", [], 0, 0, 3, ""⟩, ⟨2, "B", [], 0, 0, 3, ""⟩] : List Person) ≠ [] →
      ∃ p ∈ ([⟨1, "A", [], 0, 0, 3, ""⟩, ⟨2, "B", [], 0, 0, 3, ""⟩] : List Person),
        (DB.get_statistics ⟨[⟨1, "A", [], 0, 0, 3, ""⟩, ⟨2, "B", [], 0, 0, 3, ""⟩],
          [], [], 3, 1, 1⟩ (fun _ => false)).most_frequent_name = some p.name ∧
        (DB.get_statistics ⟨[⟨1, "A", [], 0, 0, 3, ""⟩, ⟨2, "B", [], 0, 0, 3, ""⟩],
          [], [], 3, 1, 1⟩ (fun _ => false)).most_frequent_count = p.visit_count ∧
        (∀ q ∈ ([⟨1, "A", [], 0, 0, 3, ""⟩, ⟨2, "B", [], 0, 0, 3, ""⟩] : List Person),
          q.visit_count ≤ p.visit_count) ∧
        (∀ q ∈ ([⟨1, "A", [], 0, 0, 3, ""⟩, ⟨2, "B", [], 0, 0, 3, ""⟩] : List Person),
          q.visit_count = p.visit_count → p.id ≤ q.id)) :=
  claim_C6_statistics ⟨[⟨1, "A", [], 0, 0, 3, ""⟩, ⟨2, "B", [], 0, 0, 3, ""⟩],
    [], [], 3, 1, 1⟩ (fun _ => false) (by simp)

/-- C7: deleting a Person removes exactly the Visit rows referencing it and
the Person row itself; every other Person, every Visit of a different
Person, and every UnidentifiedSighting survives unchanged (and in the
original order). -/
theorem claim_C7_delete_person_frame (db : DB) (pid : Nat) :
    (db.delete_person pid).1 = true ∧
    (∀ v, v ∈ (db.delete_person pid).2.visits ↔
        v ∈ db.visits ∧ v.person_id ≠ pid) ∧
    (∀ p, p ∈ (db.delete_person pid).2.persons ↔
        p ∈ db.persons ∧ p.id ≠ pid) ∧
    (db.delete_person pid).2.visits.Sublist db.visits ∧
    (db.delete_person pid).2.persons.Sublist db.persons ∧
    (db.delete_person pid).2.unknown_visitors = db.unknown_visitors := by
  refine ⟨rfl, ?_, ?_, ?_, ?_, rfl⟩
  · intro v
    simp [DB.delete_person, List.mem_filter]
  · intro p
    simp [DB.delete_person, List.mem_filter]
  · exact List.filter_sublist _
  · exact List.filter_sublist _

/-- C10: the delete-Person store call returns `True` and the DELETE
endpoint answers 200 for every id, whether or not a Person row with that
id exists — a nonexistent id is never distinguished from an existing one. -/
theorem claim_C10_delete_nonexistent_reports_success (db : DB) (pid : Nat) :
    (db.delete_person pid).1 = true ∧ (web_delete_person db pid).1 = 200 := by
  exact ⟨rfl, rfl⟩

theorem uniqueNames_map_of_name_eq (f : Person → Person) (l : List Person)
    (hf : ∀ p, (f p).name = p.name) (h : uniqueNames l) :
    uniqueNames (l.map f) := by
  unfold uniqueNames at h ⊢
  rw [List.pairwise_map]
  refine h.imp ?_
  intro a b hab
  rw [hf a, hf b]
  exact hab

theorem set_notes_uniqueNames (db : DB) (pid : Nat) (notes : Option String)
    (h : uniqueNames db.persons) : uniqueNames (db.set_notes pid notes).persons := by
  cases notes with
  | none => exact h
  | some s =>
      exact uniqueNames_map_of_name_eq _ _
        (fun p => by by_cases hp : p.id = pid <;> simp [hp]) h

theorem add_person_uniqueNames (db : DB) (name : String) (enc : List ℚ)
    (notes : String) (now : ℚ) (h : uniqueNames db.persons) :
    uniqueNames (db.add_person name enc notes now).2.persons := by
  cases hb : db.persons.any (fun p => decide (p.name = name)) with
  | true =>
      simp only [DB.add_person, hb, if_true]
      exact h
  | false =>
      have hnone : ∀ p ∈ db.persons, p.name ≠ name := by
        intro p hp hcontra
        have : db.persons.any (fun p => decide (p.name = name)) = true :=
          List.any_eq_true.mpr ⟨p, hp, decide_eq_true hcontra⟩
        rw [hb] at this
        exact Bool.false_ne_true this
      simp only [DB.add_person, hb, Bool.false_eq_true, if_false]
      refine List.pairwise_append.mpr ⟨h, List.pairwise_singleton _ _, ?_⟩
      intro a ha b hb'
      rw [List.mem_singleton.mp hb']
      exact hnone a ha

theorem update_person_uniqueNames (db : DB) (pid : Nat) (name notes : Option String)
    (hid : uniqueIds db.persons) (h : uniqueNames db.persons) :
    uniqueNames (db.update_person pid name notes).2.persons := by
  by_cases ht : strTruthy name = true
  · cases hc : (db.persons.any (fun p => decide (p.id = pid)) &&
        db.persons.any (fun p => decide (p.name = name.getD "" ∧ p.id ≠ pid))) with
    | true =>
        simp only [DB.update_person, ht, if_true, hc]
        exact h
    | false =>
        have hc' : ¬ (db.persons.any (fun p => decide (p.id = pid)) = true ∧
            db.persons.any (fun p => decide (p.name = name.getD "" ∧ p.id ≠ pid)) = true) := by
          rw [← Bool.and_eq_true, hc]
          exact Bool.false_ne_true
        simp only [DB.update_person, ht, if_true, hc, Bool.false_eq_true, if_false]
        refine set_notes_uniqueNames _ pid notes ?_
        show uniqueNames (db.persons.map _)
        unfold uniqueNames at h ⊢
        rw [List.pairwise_map]
        unfold uniqueIds at hid
        refine (h.and hid).imp_of_mem ?_
        intro a b ha hb hab
        obtain ⟨hname, hidab⟩ := hab
        by_cases hA : a.id = pid <;> by_cases hB : b.id = pid
        · exact absurd (hA.trans hB.symm) hidab
        · rw [if_pos hA, if_neg hB]
          intro heq
          exact hc' ⟨List.any_eq_true.mpr ⟨a, ha, decide_eq_true hA⟩,
            List.any_eq_true.mpr ⟨b, hb, decide_eq_true ⟨heq.symm, hB⟩⟩⟩
        · rw [if_neg hA, if_pos hB]
          intro heq
          exact hc' ⟨List.any_eq_true.mpr ⟨b, hb, decide_eq_true hB⟩,
            List.any_eq_true.mpr ⟨a, ha, decide_eq_true ⟨heq, hA⟩⟩⟩
        · rw [if_neg hA, if_neg hB]
          exact hname
  · simp only [DB.update_person, ht, if_false]
    exact set_notes_uniqueNames db pid notes h

/-- C5: a create-Person call whose name equals an existing Person's name
returns `None` (reported failure, not an exception) and leaves the store
unchanged; and Person-name uniqueness is preserved by every create and
every update operation. -/
theorem claim_C5_duplicate_create_and_uniqueness (db : DB) (name : String)
    (enc : List ℚ) (notes : String) (now : ℚ) (pid : Nat)
    (uname unotes : Option String)
    (hid : uniqueIds db.persons) (hu : uniqueNames db.persons) :
    ((∃ p ∈ db.persons, p.name = name) →
        db.add_person name enc notes now = (none, db)) ∧
    uniqueNames (db.add_person name enc notes now).2.persons ∧
    uniqueNames (db.update_person pid uname unotes).2.persons := by
  refine ⟨?_, add_person_uniqueNames db name enc notes now hu,
    update_person_uniqueNames db pid uname unotes hid hu⟩
  rintro ⟨p, hp, hname⟩
  have hb : db.persons.any (fun p => decide (p.name = name)) = true :=
    List.any_eq_true.mpr ⟨p, hp, decide_eq_true hname⟩
  simp [DB.add_person, hb]

theorem claim_C5_duplicate_create_and_uniqueness_witness :
    ((∃ p ∈ ([⟨1, "Bob", [], 0, 0, 0, ""⟩] : List Person), p.name = "Bob") →
        DB.add_person ⟨[⟨1, "Bob", [], 0, 0, 0, ""⟩], [], [], 2, 1, 1⟩ "Bob" [] "" 0
          = (none, ⟨[⟨1, "Bob", [], 0, 0, 0, ""⟩], [], [], 2, 1, 1⟩)) ∧
    uniqueNames (DB.add_person ⟨[⟨1, "Bob", [], 0, 0, 0, ""⟩], [], [], 2, 1, 1⟩
        "Bob" [] "" 0).2.persons ∧
    uniqueNames (DB.update_person ⟨[⟨1, "Bob", [], 0, 0, 0, ""⟩], [], [], 2, 1, 1⟩
        1 (some "Carol") none).2.persons :=
  claim_C5_duplicate_create_and_uniqueness
    ⟨[⟨1, "Bob", [], 0, 0, 0, ""⟩], [], [], 2, 1, 1⟩ "Bob" [] "" 0 1
    (some "Carol") none (by simp [uniqueIds]) (by simp [uniqueNames])

/-- C4 counterexample: an uploaded image in which TWO faces are detectable
is not rejected: the handler succeeds and creates a Person (from the first
encoding), contradicting the claim that the request succeeds only when the
image contains exactly one detectable face. -/
theorem claim_C4_counterexample :
    ((⟨some "Alice", "", true, "f.jpg", [[(1:ℚ)/2], [(1:ℚ)/3]]⟩ :
        AddPersonRequest)).file_encodings.length = 2 ∧
    (web_add_person ⟨[], [], [], 1, 1, 1⟩
        ⟨some "Alice", "", true, "f.jpg", [[(1:ℚ)/2], [(1:ℚ)/3]]⟩ 0).1
      = AddPersonResult.ok 1 ∧
    ((web_add_person ⟨[], [], [], 1, 1, 1⟩
        ⟨some "Alice", "", true, "f.jpg", [[(1:ℚ)/2], [(1:ℚ)/3]]⟩ 0).2.1.persons.map
          Person.name) = ["Alice"] := by
  refine ⟨rfl, ?_, ?_⟩ <;> rfl

/-- C4 amended: with a truthy name and a selected file, the request is
rejected with the 4xx "no face found" error — upload discarded, store
unchanged — exactly when the image contains NO detectable face; when it
contains one or more faces the handler proceeds with the FIRST encoding
(a multi-face image is not rejected), keeping the saved upload. -/
theorem claim_C4_amended_no_face_rejected (db : DB) (req : AddPersonRequest)
    (now : ℚ) (hname : strTruthy req.name = true) (hfile : req.has_file = true)
    (hfn : req.filename ≠ "") :
    (req.file_encodings = [] →
      web_add_person db req now
        = (.badRequest "No face found in image", db, false)) ∧
    (∀ e rest, req.file_encodings = e :: rest →
      web_add_person db req now =
        (match (db.add_person (req.name.getD "") e req.notes now).1 with
          | some pid => AddPersonResult.ok pid
          | none => AddPersonResult.serverError,
         (db.add_person (req.name.getD "") e req.notes now).2, true)) := by
  constructor
  · intro h
    simp [web_add_person, hname, hfile, hfn, h]
  · intro e rest h
    rcases hr : db.add_person (req.name.getD "") e req.notes now with ⟨pidOpt, db'⟩
    cases pidOpt with
    | none => simp [web_add_person, hname, hfile, hfn, h, hr]
    | some pid => simp [web_add_person, hname, hfile, hfn, h, hr]

theorem claim_C4_amended_no_face_rejected_witness :
    ((⟨some "Dana", "", true, "g.jpg", [[(1:ℚ)/4]]⟩ :
        AddPersonRequest).file_encodings = [] →
      web_add_person ⟨[], [], [], 1, 1, 1⟩
          ⟨some "Dana", "", true, "g.jpg", [[(1:ℚ)/4]]⟩ 0
        = (.badRequest "No face found in image", ⟨[], [], [], 1, 1, 1⟩, false)) ∧
    (∀ e rest,
      (⟨some "Dana", "", true, "g.jpg", [[(1:ℚ)/4]]⟩ :
          AddPersonRequest).file_encodings = e :: rest →
      web_add_person ⟨[], [], [], 1, 1, 1⟩
          ⟨some "Dana", "", true, "g.jpg", [[(1:ℚ)/4]]⟩ 0 =
        (match (DB.add_person ⟨[], [], [], 1, 1, 1⟩
            ((⟨some "Dana", "", true, "g.jpg", [[(1:ℚ)/4]]⟩ :
              AddPersonRequest).name.getD "") e
            (⟨some "Dana", "", true, "g.jpg", [[(1:ℚ)/4]]⟩ :
              AddPersonRequest).notes 0).1 with
          | some pid => AddPersonResult.ok pid
          | none => AddPersonResult.serverError,
         (DB.add_person ⟨[], [], [], 1, 1, 1⟩
            ((⟨some "Dana", "", true, "g.jpg", [[(1:ℚ)/4]]⟩ :
              AddPersonRequest).name.getD "") e
            (⟨some "Dana", "", true, "g.jpg", [[(1:ℚ)/4]]⟩ :
              AddPersonRequest).notes 0).2, true)) :=
  claim_C4_amended_no_face_rejected ⟨[], [], [], 1, 1, 1⟩
    ⟨some "Dana", "", true, "g.jpg", [[(1:ℚ)/4]]⟩ 0 (by decide) (by decide)
    (by decide)

theorem dvr_redact_eq (d1 d2 : DvrConfig) (h : dvrNonSecretEq d1 d2) :
    ({ d1 with password := none } : DvrConfig)
      = { d2 with password := none } := by
  obtain ⟨h1, h2, h3, h4, h5⟩ := h
  cases d1
  cases d2
  simp_all

theorem email_redact_eq (e1 e2 : EmailConfig) (h : emailNonSecretEq e1 e2) :
    ({ e1 with sendgrid_api_key := none } : EmailConfig)
      = { e2 with sendgrid_api_key := none } := by
  obtain ⟨h1, h2, h3⟩ := h
  cases e1
  cases e2
  simp_all

theorem telegram_redact_eq (t1 t2 : TelegramConfig) (h : telegramNonSecretEq t1 t2) :
    ({ t1 with bot_token := none } : TelegramConfig)
      = { t2 with bot_token := none } := by
  obtain ⟨h1, h2⟩ := h
  cases t1
  cases t2
  simp_all

theorem notifications_redact_eq (n1 n2 : NotificationsConfig)
    (h : notificationsNonSecretEq n1 n2) :
    ({ n1 with
        email := n1.email.map (fun e => { e with sendgrid_api_key := none }),
        telegram := n1.telegram.map (fun t => { t with bot_token := none }) } :
      NotificationsConfig)
    = { n2 with
        email := n2.email.map (fun e => { e with sendgrid_api_key := none }),
        telegram := n2.telegram.map (fun t => { t with bot_token := none }) } := by
  obtain ⟨he, hem, htl⟩ := h
  obtain ⟨en1, e1, t1⟩ := n1
  obtain ⟨en2, e2, t2⟩ := n2
  dsimp only at he hem htl ⊢
  subst he
  simp only [NotificationsConfig.mk.injEq, true_and]
  constructor
  · cases hem with
    | none => rfl
    | some hab => exact congrArg some (email_redact_eq _ _ hab)
  · cases htl with
    | none => rfl
    | some hab => exact congrArg some (telegram_redact_eq _ _ hab)

/-- C9: the response of GET `/api/config` never contains the DVR password,
the email-channel API key or the messaging-channel bot token, and the
redacted response is a function of the non-secret fields only: two stored
configurations that agree outside those secret fields yield identical
responses. -/
theorem claim_C9_config_read_redacts_secrets (c c1 c2 : Config)
    (h : configNonSecretEq c1 c2) :
    (∀ d, (web_get_config c).dvr = some d → d.password = none) ∧
    (∀ n e, (web_get_config c).notifications = some n → n.email = some e →
        e.sendgrid_api_key = none) ∧
    (∀ n t, (web_get_config c).notifications = some n → n.telegram = some t →
        t.bot_token = none) ∧
    web_get_config c1 = web_get_config c2 := by
  refine ⟨?_, ?_, ?_, ?_⟩
  · intro d hd
    simp only [web_get_config] at hd
    cases hc : c.dvr with
    | none => rw [hc] at hd; simp at hd
    | some d0 =>
        rw [hc] at hd
        simp only [Option.map_some'] at hd
        obtain rfl := Option.some.inj hd
        rfl
  · intro n e hn he
    simp only [web_get_config] at hn
    cases hc : c.notifications with
    | none => rw [hc] at hn; simp at hn
    | some n0 =>
        rw [hc] at hn
        simp only [Option.map_some'] at hn
        obtain rfl := Option.some.inj hn
        dsimp only at he
        cases he2 : n0.email with
        | none => rw [he2] at he; simp at he
        | some e0 =>
            rw [he2] at he
            simp only [Option.map_some'] at he
            obtain rfl := Option.some.inj he
            rfl
  · intro n t hn ht
    simp only [web_get_config] at hn
    cases hc : c.notifications with
    | none => rw [hc] at hn; simp at hn
    | some n0 =>
        rw [hc] at hn
        simp only [Option.map_some'] at hn
        obtain rfl := Option.some.inj hn
        dsimp only at ht
        cases ht2 : n0.telegram with
        | none => rw [ht2] at ht; simp at ht
        | some t0 =>
            rw [ht2] at ht
            simp only [Option.map_some'] at ht
            obtain rfl := Option.some.inj ht
            rfl
  · obtain ⟨d1, n1, r1⟩ := c1
    obtain ⟨d2, n2, r2⟩ := c2
    obtain ⟨hd, hn, hr⟩ := h
    dsimp only at hd hn hr
    subst hr
    simp only [web_get_config, Config.mk.injEq]
    refine ⟨?_, ?_, trivial⟩
    · cases hd with
      | none => rfl
      | some hab => exact congrArg some (dvr_redact_eq _ _ hab)
    · cases hn with
      | none => rfl
      | some hab => exact congrArg some (notifications_redact_eq _ _ hab)

theorem claim_C9_config_read_redacts_secrets_witness :
    (∀ d, (web_get_config ⟨some ⟨"10.0.0.2", 554, "admin", some "pw1", 1, 0⟩,
        some ⟨true, some ⟨true, some "key1", some "a@x", some "b@x"⟩,
          some ⟨true, some "tok1", some "42"⟩⟩,
        some ⟨6/10, 6⟩⟩).dvr = some d → d.password = none) ∧
    (∀ n e, (web_get_config ⟨some ⟨"10.0.0.2", 554, "admin", some "pw1", 1, 0⟩,
        some ⟨true, some ⟨true, some "key1", some "a@x", some "b@x"⟩,
          some ⟨true, some "tok1", some "42"⟩⟩,
        some ⟨6/10, 6⟩⟩).notifications = some n → n.email = some e →
        e.sendgrid_api_key = none) ∧
    (∀ n t, (web_get_config ⟨some ⟨"10.0.0.2", 554, "admin", some "pw1", 1, 0⟩,
        some ⟨true, some ⟨true, some "key1", some "a@x", some "b@x"⟩,
          some ⟨true, some "tok1", some "42"⟩⟩,
        some ⟨6/10, 6⟩⟩).notifications = some n → n.telegram = some t →
        t.bot_token = none) ∧
    web_get_config ⟨some ⟨"10.0.0.2", 554, "admin", some "pw1", 1, 0⟩,
        some ⟨true, some ⟨true, some "key1", some "a@x", some "b@x"⟩,
          some ⟨true, some "tok1", some "42"⟩⟩,
        some ⟨6/10, 6⟩⟩
      = web_get_config ⟨some ⟨"10.0.0.2", 554, "admin", some "pw2", 1, 0⟩,
        some ⟨true, some ⟨true, some "key2", some "a@x", some "b@x"⟩,
          some ⟨true, some "tok2", some "42"⟩⟩,
        some ⟨6/10, 6⟩⟩ :=
  claim_C9_config_read_redacts_secrets
    ⟨some ⟨"10.0.0.2", 554, "admin", some "pw1", 1, 0⟩,
      some ⟨true, some ⟨true, some "key1", some "a@x", some "b@x"⟩,
        some ⟨true, some "tok1", some "42"⟩⟩, some ⟨6/10, 6⟩⟩
    ⟨some ⟨"10.0.0.2", 554, "admin", some "pw1", 1, 0⟩,
      some ⟨true, some ⟨true, some "key1", some "a@x", some "b@x"⟩,
        some ⟨true, some "tok1", some "42"⟩⟩, some ⟨6/10, 6⟩⟩
    ⟨some ⟨"10.0.0.2", 554, "admin", some "pw2", 1, 0⟩,
      some ⟨true, some ⟨true, some "key2", some "a@x", some "b@x"⟩,
        some ⟨true, some "tok2", some "42"⟩⟩, some ⟨6/10, 6⟩⟩
    ⟨Option.Rel.some ⟨rfl, rfl, rfl, rfl, rfl⟩,
      Option.Rel.some ⟨rfl, Option.Rel.some ⟨rfl, rfl, rfl⟩,
        Option.Rel.some ⟨rfl, rfl⟩⟩, rfl⟩

theorem add_person_unknown_visitors (db : DB) (name : String) (enc : List ℚ)
    (notes : String) (now : ℚ) :
    (db.add_person name enc notes now).2.unknown_visitors = db.unknown_visitors := by
  unfold DB.add_person
  split <;> rfl

theorem add_person_flagRefInv (db : DB) (name : String) (enc : List ℚ)
    (notes : String) (now : ℚ) (h : flagRefInv db) :
    flagRefInv (db.add_person name enc notes now).2 := by
  intro u hu
  rw [add_person_unknown_visitors] at hu
  exact h u hu

theorem add_person_fail (db : DB) (name : String) (enc : List ℚ)
    (notes : String) (now : ℚ)
    (h : (db.add_person name enc notes now).1 = none) :
    (db.add_person name enc notes now).2 = db := by
  cases hb : db.persons.any (fun p => decide (p.name = name)) with
  | true => simp [DB.add_person, hb]
  | false => simp [DB.add_person, hb] at h

theorem add_person_success (db : DB) (name : String) (enc : List ℚ)
    (notes : String) (now : ℚ) (pid : Nat)
    (h : (db.add_person name enc notes now).1 = some pid) :
    pid = db.next_person_id ∧
    (db.add_person name enc notes now).2
      = { db with
            persons := db.persons ++
              [⟨db.next_person_id, name, enc, now, now, 0, notes⟩],
            next_person_id := db.next_person_id + 1 } := by
  cases hb : db.persons.any (fun p => decide (p.name = name)) with
  | true => simp [DB.add_person, hb] at h
  | false =>
      have h' : (some db.next_person_id : Option Nat) = some pid := by
        simpa [DB.add_person, hb] using h
      obtain rfl := Option.some.inj h'
      simp [DB.add_person, hb]

theorem mark_unknown_persons (db : DB) (uid pid : Nat) :
    (db.mark_unknown_as_identified uid pid).2.persons = db.persons := rfl

theorem mark_unknown_flagRefInv (db : DB) (uid pid : Nat) (h : flagRefInv db) :
    flagRefInv (db.mark_unknown_as_identified uid pid).2 := by
  intro u hu
  unfold DB.mark_unknown_as_identified at hu
  dsimp only at hu
  rcases List.mem_map.mp hu with ⟨u0, hu0, rfl⟩
  by_cases h0 : u0.id = uid
  · simp [h0]
  · simp only [h0, if_false]
    exact h u0 hu0

theorem mem_insertSorted (le : UnknownVisitor → UnknownVisitor → Bool)
    (a x : UnknownVisitor) (l : List UnknownVisitor) :
    x ∈ insertSorted le a l ↔ x = a ∨ x ∈ l := by
  induction l with
  | nil => simp [insertSorted]
  | cons b bs ih =>
      by_cases hb : le a b
      · simp [insertSorted, hb]
      · simp [insertSorted, hb, ih]
        tauto

theorem mem_stableSort (le : UnknownVisitor → UnknownVisitor → Bool)
    (x : UnknownVisitor) (l : List UnknownVisitor) :
    x ∈ stableSort le l ↔ x ∈ l := by
  induction l with
  | nil => simp [stableSort]
  | cons a as ih => simp [stableSort, mem_insertSorted, ih]

theorem get_unknown_visitors_mem (db : DB) (lim : Nat) (idf : Bool)
    (u : UnknownVisitor) (h : u ∈ db.get_unknown_visitors lim idf) :
    u ∈ db.unknown_visitors ∧ u.identified = idf := by
  unfold DB.get_unknown_visitors at h
  have h1 := List.take_subset _ _ h
  rw [mem_stableSort] at h1
  obtain ⟨hm, hp⟩ := List.mem_filter.mp h1
  exact ⟨hm, by simpa using hp⟩

/-- C8 counterexample: a successful promotion commits Person creation and
the sighting update in two separate transactions; in the observable store
state after the first commit the promoted Person already exists while the
sighting's identified flag is still unset — the two are not set atomically
with Person creation. -/
theorem claim_C8_counterexample :
    (web_identify_unknown ⟨[], [], [⟨1, 0, "img.jpg", false, none⟩], 1, 1, 2⟩
        (fun _ => [[(1:ℚ)/2]]) 1 (some "Alice") "" 0).1 = IdentifyResult.ok 1 ∧
    ((web_identify_unknown ⟨[], [], [⟨1, 0, "img.jpg", false, none⟩], 1, 1, 2⟩
        (fun _ => [[(1:ℚ)/2]]) 1 (some "Alice") "" 0).2.getD 1
          ⟨[], [], [], 0, 0, 0⟩).persons.map Person.name = ["Alice"] ∧
    ((web_identify_unknown ⟨[], [], [⟨1, 0, "img.jpg", false, none⟩], 1, 1, 2⟩
        (fun _ => [[(1:ℚ)/2]]) 1 (some "Alice") "" 0).2.getD 1
          ⟨[], [], [], 0, 0, 0⟩).unknown_visitors.map UnknownVisitor.identified
      = [false] := by
  refine ⟨?_, ?_, ?_⟩ <;> rfl

/-- C8 amended: the promoted Person's embedding is the first face encoding
extracted from the sighting's stored image, and the sighting's identified
flag and back-reference are set together in one UPDATE after Person
creation — so the flag-iff-backref invariant holds in every observable
store state — but Person creation and the sighting update are separate
transactions, with an intermediate observable state in which the Person
exists and the sighting is still unresolved. -/
theorem claim_C8_amended_promotion (db : DB)
    (encodingsOf : String → List (List ℚ)) (uid : Nat) (name : Option String)
    (notes : String) (now : ℚ) (hinv : flagRefInv db) :
    (∀ res trace,
        web_identify_unknown db encodingsOf uid name notes now = (res, trace) →
        ∀ db' ∈ trace, flagRefInv db') ∧
    (∀ pid trace,
        web_identify_unknown db encodingsOf uid name notes now
          = (.ok pid, trace) →
        ∃ u ∈ db.unknown_visitors, u.id = uid ∧ u.identified = false ∧
          ∃ e rest, encodingsOf u.image_path = e :: rest ∧
          ∃ dbFinal, trace.getLast? = some dbFinal ∧
            (∃ p ∈ dbFinal.persons, p.id = pid ∧ p.face_encoding = e) ∧
            (∀ u2 ∈ dbFinal.unknown_visitors, u2.id = uid →
              u2.identified = true ∧ u2.identified_as = some pid)) := by
  by_cases hn : strTruthy name = true
  · cases hfind : (db.get_unknown_visitors 1000 false).find?
        (fun u => decide (u.id = uid)) with
    | none =>
        have hweb : web_identify_unknown db encodingsOf uid name notes now
            = (.notFound, [db]) := by
          simp [web_identify_unknown, hn, hfind]
        constructor
        · intro res trace heq db' hdb'
          rw [hweb] at heq
          injection heq with heq1 heq2
          subst heq1
          subst heq2
          rw [List.mem_singleton.mp hdb']
          exact hinv
        · intro pid trace heq
          rw [hweb] at heq
          exact absurd (congrArg Prod.fst heq) (by simp)
    | some u =>
        cases hencs : encodingsOf u.image_path with
        | nil =>
            have hweb : web_identify_unknown db encodingsOf uid name notes now
                = (.badRequest "No face found in image", [db]) := by
              simp [web_identify_unknown, hn, hfind, hencs]
            constructor
            · intro res trace heq db' hdb'
              rw [hweb] at heq
              injection heq with heq1 heq2
              subst heq1
              subst heq2
              rw [List.mem_singleton.mp hdb']
              exact hinv
            · intro pid trace heq
              rw [hweb] at heq
              exact absurd (congrArg Prod.fst heq) (by simp)
        | cons e rest =>
            cases hadd : (db.add_person (name.getD "") e notes now).1 with
            | none =>
                have hweb : web_identify_unknown db encodingsOf uid name notes now
                    = (.serverError,
                       [db, (db.add_person (name.getD "") e notes now).2]) := by
                  simp [web_identify_unknown, hn, hfind, hencs, hadd]
                constructor
                · intro res trace heq db' hdb'
                  rw [hweb] at heq
                  injection heq with heq1 heq2
                  subst heq1
                  subst heq2
                  rcases List.mem_cons.mp hdb' with rfl | hdb'
                  · exact hinv
                  · rw [List.mem_singleton.mp hdb']
                    exact add_person_flagRefInv db _ e notes now hinv
                · intro pid trace heq
                  rw [hweb] at heq
                  exact absurd (congrArg Prod.fst heq) (by simp)
            | some pid0 =>
                have hweb : web_identify_unknown db encodingsOf uid name notes now
                    = (.ok pid0,
                       [db, (db.add_person (name.getD "") e notes now).2,
                        ((db.add_person (name.getD "") e notes
                            now).2.mark_unknown_as_identified uid pid0).2]) := by
                  simp [web_identify_unknown, hn, hfind, hencs, hadd]
                obtain ⟨hu, hunid⟩ := get_unknown_visitors_mem db 1000 false u
                  (List.mem_of_find?_eq_some hfind)
                have huid : u.id = uid := by
                  have := List.find?_some hfind
                  simpa using this
                obtain ⟨hpid, hdb1⟩ :=
                  add_person_success db (name.getD "") e notes now pid0 hadd
                constructor
                · intro res trace heq db' hdb'
                  rw [hweb] at heq
                  injection heq with heq1 heq2
                  subst heq1
                  subst heq2
                  rcases List.mem_cons.mp hdb' with rfl | hdb'
                  · exact hinv
                  · rcases List.mem_cons.mp hdb' with rfl | hdb'
                    · exact add_person_flagRefInv db _ e notes now hinv
                    · rw [List.mem_singleton.mp hdb']
                      exact mark_unknown_flagRefInv _ uid pid0
                        (add_person_flagRefInv db _ e notes now hinv)
                · intro pid trace heq
                  rw [hweb] at heq
                  have hpid' : pid0 = pid := by
                    have := congrArg Prod.fst heq
                    simpa using this
                  subst hpid'
                  have htr : trace
                      = [db, (db.add_person (name.getD "") e notes now).2,
                         ((db.add_person (name.getD "") e notes
                            now).2.mark_unknown_as_identified uid pid0).2] := by
                    have := congrArg Prod.snd heq
                    simpa using this.symm
                  subst htr
                  refine ⟨u, hu, huid, hunid, e, rest, hencs,
                    ((db.add_person (name.getD "") e notes
                        now).2.mark_unknown_as_identified uid pid0).2,
                    rfl, ?_, ?_⟩
                  · refine ⟨⟨db.next_person_id, name.getD "", e, now, now, 0, notes⟩,
                      ?_, hpid.symm, rfl⟩
                    rw [mark_unknown_persons, hdb1]
                    exact List.mem_append_right _ (List.mem_cons_self _ _)
                  · intro u2 hu2 hu2id
                    unfold DB.mark_unknown_as_identified at hu2
                    dsimp only at hu2
                    rcases List.mem_map.mp hu2 with ⟨u0, hu0, rfl⟩
                    by_cases h0 : u0.id = uid
                    · simp [h0]
                    · simp [h0] at hu2id
  · have hweb : web_identify_unknown db encodingsOf uid name notes now
        = (.badRequest "Name is required", [db]) := by
      simp [web_identify_unknown, hn]
    constructor
    · intro res trace heq db' hdb'
      rw [hweb] at heq
      injection heq with heq1 heq2
      subst heq1
      subst heq2
      rw [List.mem_singleton.mp hdb']
      exact hinv
    · intro pid trace heq
      rw [hweb] at heq
      exact absurd (congrArg Prod.fst heq) (by simp)

theorem claim_C8_amended_promotion_witness :
    (∀ res trace,
        web_identify_unknown ⟨[], [], [⟨1, 0, "img.jpg", false, none⟩], 1, 1, 2⟩
            (fun _ => [[(1:ℚ)/2]]) 1 (some "Alice") "" 0 = (res, trace) →
        ∀ db' ∈ trace, flagRefInv db') ∧
    (∀ pid trace,
        web_identify_unknown ⟨[], [], [⟨1, 0, "img.jpg", false, none⟩], 1, 1, 2⟩
            (fun _ => [[(1:ℚ)/2]]) 1 (some "Alice") "" 0 = (.ok pid, trace) →
        ∃ u ∈ ([⟨1, 0, "img.jpg", false, none⟩] : List UnknownVisitor),
          u.id = 1 ∧ u.identified = false ∧
          ∃ e rest, (fun _ => [[(1:ℚ)/2]] : String → List (List ℚ)) u.image_path
              = e :: rest ∧
          ∃ dbFinal, trace.getLast? = some dbFinal ∧
            (∃ p ∈ dbFinal.persons, p.id = pid ∧ p.face_encoding = e) ∧
            (∀ u2 ∈ dbFinal.unknown_visitors, u2.id = 1 →
              u2.identified = true ∧ u2.identified_as = some pid)) :=
  claim_C8_amended_promotion ⟨[], [], [⟨1, 0, "img.jpg", false, none⟩], 1, 1, 2⟩
    (fun _ => [[(1:ℚ)/2]]) 1 (some "Alice") "" 0 (by unfold flagRefInv; decide)

end DVRFace
